import Mathlib

/-!
# Verification of the rizko curation pipeline

A shallow embedding, in Lean 4, of the scoring and orchestration logic of
the `server/app/services` package:

* `super_vision_pipeline.py` — the scan orchestrator (`run_super_vision_scan`),
  its credit accounting (`_calculate_credits`, the bonus→rollover→main deduction
  block), its final-score blending and result selection (step 7), and the
  failure/success transitions on `SuperVisionConfig`;
* `project_filter.py` — the metadata prefilter and the batched relevance
  scoring path (`batch_ai_score`, `_score_batch`, `_parse_scores_response`);
* `scorer.py` — the pure `TrendScorer.calculate_uts_breakdown` layers.

Modelling conventions, used throughout:

* Python machine integers are unbounded, so they are modelled as `Int`
  (counters that are necessarily non-negative as `Nat`).
* A Python value that may be `None` (a nullable database column, a missing
  dict key) is modelled as an `Option`.
* In Python, `x or d` on numbers treats both `None` and `0` as falsy; on
  strings it treats both `None` and `""` as falsy.  The helpers `pyOrInt`
  and `pyOrStr` reproduce this.
* Python floats are modelled by exact rationals (`ℚ`): every property stated
  here is an order/bound property that is insensitive to the rounding of the
  underlying binary arithmetic; `math.log10` is modelled by `Real.logb 10`.
* `datetime` values are modelled as integer epoch seconds; a
  `timedelta(hours=h)` is `h * 3600` seconds.
* External collaborators (the Gemini client, the Apify scraper) are modelled
  by explicit parameters describing the outcome of each call.
-/

namespace Rizko

/-- Python `x or d` for a nullable integer: `None` and `0` are falsy. -/
def pyOrInt (x : Option Int) (d : Int) : Int :=
  match x with
  | none => d
  | some v => if v = 0 then d else v

/-- Python `x or d` for a nullable string: `None` and `""` are falsy. -/
def pyOrStr (x : String) (d : String) : String :=
  if x = "" then d else x

/-! ## Credit deduction (`run_super_vision_scan`, step 8)

```python
remaining = credits_used
if user.bonus_credits and user.bonus_credits > 0:
    deduct = min(remaining, user.bonus_credits)
    user.bonus_credits -= deduct
    remaining -= deduct
if remaining > 0 and user.rollover_credits and user.rollover_credits > 0:
    deduct = min(remaining, user.rollover_credits)
    user.rollover_credits -= deduct
    remaining -= deduct
if remaining > 0:
    user.credits = max(0, (user.credits or 0) - remaining)
```

The three buckets are nullable database columns, hence `Option Int`.
Sequential mutation of `user.*` / `remaining` becomes explicit state passing:
`d1`/`d2` are the two `deduct` amounts (`0` when the corresponding `if` body
is not entered), `r1`/`r2` the successive values of `remaining`. -/
def deductCredits (bonus rollover main : Option Int) (cost : Int) :
    Option Int × Option Int × Option Int :=
  let d1 : Int :=
    match bonus with
    | some b => if b ≠ 0 ∧ b > 0 then min cost b else 0
    | none => 0
  let r1 : Int := cost - d1
  let d2 : Int :=
    match rollover with
    | some r => if r1 > 0 ∧ r ≠ 0 ∧ r > 0 then min r1 r else 0
    | none => 0
  let r2 : Int := r1 - d2
  ((match bonus with | some b => some (b - d1) | none => none),
   (match rollover with | some r => some (r - d2) | none => none),
   (if r2 > 0 then some (max 0 ((pyOrInt main 0) - r2)) else main))

/-! ## Run-cost computation (`_calculate_credits`)

```python
cost = 2  # Apify scraping base cost
text_scored = scan_stats.get("after_metadata", 0)
if text_scored > 0:
    cost += max(1, (text_scored + 7) // 8) * 2  # 2 credits per batch of 8
vision_count = scan_stats.get("vision_analyzed", 0)
cost += vision_count * 5  # 5 credits per vision analysis
return cost
```

`after_metadata` is `len(passed)` after the metadata prefilter and
`vision_analyzed` is the number of *successful* deep-analysis calls, both
non-negative counts, hence `Nat`. -/
def calculateCredits (after_metadata vision_analyzed : Nat) : Nat :=
  let cost := 2
  let cost := if after_metadata > 0 then cost + max 1 ((after_metadata + 7) / 8) * 2 else cost
  cost + vision_analyzed * 5

/-! ## Batched relevance scoring (`project_filter.py`)

`BATCH_SIZE = 8`, `CACHE_TTL_HOURS = 24`. -/

def BATCH_SIZE : Nat := 8

def CACHE_TTL_HOURS : Int := 24

/-- The fields of a candidate video dict that the relevance-scoring path
reads for identification.  A missing key is modelled as `""` (Python
`video.get(k)` returning `None` and the empty string are treated alike by
every `or`-chain below). -/
structure PFVideo where
  platform_id : String
  id : String
deriving DecidableEq

/-- A `{"score": ..., "reason": ...}` entry of the score dictionaries. -/
structure ScoreEntry where
  score : Int
  reason : String
deriving DecidableEq

/-- One element of the JSON array returned by Gemini:
`{"id": i, "score": s, "reason": r}`; `score`/`reason` may be absent
(`item.get("score", 50)`, `item.get("reason", "")`). -/
structure ScoreItem where
  id : Int
  score : Option Int
  reason : Option String
deriving DecidableEq

/-- Outcome of one `gemini_client.models.generate_content` call in
`_score_batch`: either the call (or reading its text) raises, or it returns
a text whose JSON-array extraction either succeeds with a list of items or
fails.  (`_parse_scores_response` catches its own `json.loads` errors and
returns `[]`, so a malformed text is `returns none`, not `raises`.) -/
inductive GeminiOutcome where
  | raises (msg : String)
  | returns (parsedScores : Option (List ScoreItem))

/-- A Python dict keyed by platform-id strings. -/
def ScoreDict : Type := String → Option ScoreEntry

def emptyScoreDict : ScoreDict := fun _ => none

/-- `d[k] = v` on a Python dict: overwrite or add. -/
def dictInsert (d : ScoreDict) (k : String) (v : ScoreEntry) : ScoreDict :=
  fun q => if q = k then some v else d q

/-- `a = {**a, **b}` / `a.update(b)`: entries of `b` win. -/
def dictUpdate (a b : ScoreDict) : ScoreDict :=
  fun q => match b q with
  | some v => some v
  | none => a q

/-- `_parse_scores_response`: a JSON array successfully extracted from the
response text yields its items; any extraction or `json.loads` failure is
caught inside the function and yields `[]`. -/
def parseScoresResponse (parsed : Option (List ScoreItem)) : List ScoreItem :=
  parsed.getD []

/-- `str(v.get("platform_id") or v.get("id") or f"unknown_{i}")`
(`_score_batch`, building `video_ids`). -/
def batchPid (i : Nat) (v : PFVideo) : String :=
  pyOrStr v.platform_id (pyOrStr v.id ("unknown_" ++ toString i))

/-- The `video_ids` list of `_score_batch`. -/
def batchPids (videos : List PFVideo) : List String :=
  videos.enum.map fun p => batchPid p.1 p.2

/-- `max(0, min(100, s))` (`_score_batch`, result assembly). -/
def clampScore (s : Int) : Int := max 0 (min 100 s)

/-! `_score_batch(videos, profile, gemini_client)` is modelled by
`scoreBatch` below, as a function of the outcome of its single Gemini call;
it returns the `{platform_id: {score, reason}}` dict.

```python
try:
    ... scores_list = _parse_scores_response(raw_text)
    result = {}
    for item in scores_list:
        idx = item.get("id", 0)
        if isinstance(idx, int) and 1 <= idx <= len(video_ids):
            pid = video_ids[idx - 1]
            result[pid] = {"score": max(0, min(100, item.get("score", 50))),
                           "reason": item.get("reason", "")[:255]}
    for pid in video_ids:
        if pid not in result:
            result[pid] = {"score": 50, "reason": "unscored"}
    return result
except Exception as e:
    return {pid: {"score": 50, "reason": "scoring error"} for pid in video_ids}
``` -/
/-- One iteration of the `for item in scores_list:` loop of `_score_batch`. -/
def insertItemScore (videoIds : List String) (d : ScoreDict) (item : ScoreItem) : ScoreDict :=
  if 1 ≤ item.id ∧ item.id ≤ (videoIds.length : Int) then
    dictInsert d (videoIds.getD (item.id - 1).toNat "")
      ⟨clampScore (item.score.getD 50), (item.reason.getD "").take 255⟩
  else d

/-- One iteration of the `for pid in video_ids: if pid not in result:` loop
of `_score_batch`. -/
def fillUnscored (d : ScoreDict) (pid : String) : ScoreDict :=
  match d pid with
  | none => dictInsert d pid ⟨50, "unscored"⟩
  | some _ => d

def scoreBatch (videos : List PFVideo) (outcome : GeminiOutcome) : ScoreDict :=
  let videoIds := batchPids videos
  match outcome with
  | .raises _ => fun q => if q ∈ videoIds then some ⟨50, "scoring error"⟩ else none
  | .returns parsed =>
    let scoresList := parseScoresResponse parsed
    let result : ScoreDict :=
      scoresList.foldl (insertItemScore videoIds) emptyScoreDict
    videoIds.foldl fillUnscored result

/-- A `ProjectVideoScore` row for the project under consideration.
`reason` is a nullable column; `scored_at` is epoch seconds. -/
structure CacheRow where
  video_platform_id : String
  score : Int
  reason : Option String
  scored_at : Int
deriving DecidableEq

/-- `video.get("platform_id") or video.get("id") or ""` — the key used both
for the cache lookup loop and for the final merge loop of `batch_ai_score`. -/
def cachePid (v : PFVideo) : String :=
  pyOrStr v.platform_id (pyOrStr v.id "")

/-- `cutoff = datetime.utcnow() - timedelta(hours=CACHE_TTL_HOURS)`. -/
def cacheCutoff (now : Int) : Int := now - CACHE_TTL_HOURS * 3600

/-- The cache query of `batch_ai_score`:
`db.query(ProjectVideoScore).filter(project_id == p, video_platform_id == pid,
scored_at > cutoff).first()`. -/
def freshRow (dbRows : List CacheRow) (cutoff : Int) (pid : String) : Option CacheRow :=
  dbRows.find? fun row => decide (row.video_platform_id = pid ∧ cutoff < row.scored_at)

/-- The `uncached_videos` list of `batch_ai_score`: a video goes uncached when
its id chain is empty or no fresh cache row exists for it. -/
def uncachedVideos (videos : List PFVideo) (dbRows : List CacheRow) (now : Int) :
    List PFVideo :=
  videos.filter fun v =>
    decide (cachePid v = "" ∨ freshRow dbRows (cacheCutoff now) (cachePid v) = none)

/-- The `cached_scores` dict of `batch_ai_score`: for every video with a
non-empty id and a fresh row, `{"score": cached.score, "reason": cached.reason or ""}`. -/
def cachedScores (videos : List PFVideo) (dbRows : List CacheRow) (now : Int) : ScoreDict :=
  fun k =>
    if k ≠ "" ∧ videos.any (fun v => cachePid v == k) then
      match freshRow dbRows (cacheCutoff now) k with
      | some row => some ⟨row.score, row.reason.getD ""⟩
      | none => none
    else none

/-- Structural workhorse for `chunkBatches`: `fuel` only bounds the
recursion depth (any `fuel ≥ l.length` gives the full chunking). -/
def chunkAux (fuel : Nat) (l : List PFVideo) : List (List PFVideo) :=
  match fuel, l with
  | 0, _ => []
  | _ + 1, [] => []
  | fuel + 1, v :: rest =>
    (v :: rest.take (BATCH_SIZE - 1)) :: chunkAux fuel (rest.drop (BATCH_SIZE - 1))

/-- `for i in range(0, len(l), BATCH_SIZE): batch = l[i:i + BATCH_SIZE]`:
the successive slices of size 8. -/
def chunkBatches (l : List PFVideo) : List (List PFVideo) :=
  chunkAux l.length l

/-- The `new_scores` dict of `batch_ai_score`: one `_score_batch` call per
slice of `uncached_videos` (`outcomes k` is the Gemini outcome of the k-th
call), merged with `new_scores.update(batch_scores)`.  Guarded by
`if uncached_videos and gemini_client:`. -/
def newScores (videos : List PFVideo) (dbRows : List CacheRow) (now : Int)
    (outcomes : Nat → GeminiOutcome) (geminiPresent : Bool) : ScoreDict :=
  let uncached := uncachedVideos videos dbRows now
  if uncached ≠ [] ∧ geminiPresent then
    (chunkBatches uncached).enum.foldl
      (fun d p => dictUpdate d (scoreBatch p.2 (outcomes p.1)))
      emptyScoreDict
  else emptyScoreDict

/-- Number of Gemini relevance calls actually issued by one `batch_ai_score`
run: one per slice of `uncached_videos` (zero without a client). -/
def geminiCallCount (videos : List PFVideo) (dbRows : List CacheRow) (now : Int)
    (geminiPresent : Bool) : Nat :=
  if geminiPresent then (chunkBatches (uncachedVideos videos dbRows now)).length else 0

/-- `batch_ai_score(videos, profile, gemini_client, project_id, db)`: the
returned list, every input video annotated with its score entry.

```python
all_scores = {**cached_scores, **new_scores}
result = []
for video in videos:
    platform_id = str(video.get("platform_id") or video.get("id") or "")
    score_data = all_scores.get(platform_id, {"score": 50, "reason": "unscored"})
    video["relevance_score"] = score_data["score"]
    video["relevance_reason"] = score_data.get("reason", "")
    result.append(video)
``` -/
def batchAiScore (videos : List PFVideo) (dbRows : List CacheRow) (now : Int)
    (outcomes : Nat → GeminiOutcome) (geminiPresent : Bool) :
    List (PFVideo × ScoreEntry) :=
  if videos = [] then []
  else
    let allScores :=
      dictUpdate (cachedScores videos dbRows now)
        (newScores videos dbRows now outcomes geminiPresent)
    videos.map fun v => (v, (allScores (cachePid v)).getD ⟨50, "unscored"⟩)

/-! ## The scorer (`scorer.py`, `TrendScorer.calculate_uts_breakdown`)

All engagement inputs arrive as nullable dict values; the first lines of the
method coerce them:

```python
views = int(video_data.get("views") or 1)
followers = int(video_data.get("author_followers") or 1)
bookmarks = int(video_data.get("collect_count") or 0)
shares = int(video_data.get("share_count") or 0)
likes = int(video_data.get("likes") or 0)
comments = int(video_data.get("comments") or 0)
cascade_count = int(cascade_count or 1)
```

Python floats are modelled by exact rationals; `math.log10` by
`Real.logb 10`.  Every property proved below is an order property that the
rounding of binary floating point cannot cross. -/

/-- The engagement snapshot dict passed to the scorer. -/
structure ScorerInput where
  views : Option Int
  author_followers : Option Int
  collect_count : Option Int
  share_count : Option Int
  likes : Option Int
  comments : Option Int
deriving DecidableEq

/-- The optional historical snapshot. -/
structure ScorerHistory where
  play_count : Option Int
  total_sound_usage : Option Int
deriving DecidableEq

/-- The integers the scorer actually computes with, after coercion. -/
structure CoercedInputs where
  views : Int
  followers : Int
  bookmarks : Int
  shares : Int
  likes : Int
  comments : Int
  cascade : Int
deriving DecidableEq

/-- The coercion block at the top of `calculate_uts_breakdown`. -/
def coerceInputs (d : ScorerInput) (cascade_count : Int) : CoercedInputs where
  views := pyOrInt d.views 1
  followers := pyOrInt d.author_followers 1
  bookmarks := pyOrInt d.collect_count 0
  shares := pyOrInt d.share_count 0
  likes := pyOrInt d.likes 0
  comments := pyOrInt d.comments 0
  cascade := pyOrInt (some cascade_count) 1

/-- L1 Viral Lift: `min((views / max(followers, 1)) / 10.0, 1.0)`. -/
def l1Score (ci : CoercedInputs) : ℚ :=
  min ((ci.views : ℚ) / ((max ci.followers 1 : Int) : ℚ) / 10) 1

/-- `engagement_rate = (likes + comments + shares + bookmarks) / max(views, 1)`. -/
def engagementRate (ci : CoercedInputs) : ℚ :=
  ((ci.likes + ci.comments + ci.shares + ci.bookmarks : Int) : ℚ) /
    ((max ci.views 1 : Int) : ℚ)

/-- L2 Velocity: engagement-rate proxy capped at 1, replaced by the growth
rate when history is present (negative growth halves the proxy):

```python
l2_score = min(engagement_rate * 20, 1.0)
if history_data:
    old_views = int(history_data.get("play_count") or views)
    growth_rate = (views - old_views) / max(old_views, 1)
    l2_score = min(growth_rate, 1.0) if growth_rate > 0 else l2_score * 0.5
``` -/
def l2Score (ci : CoercedInputs) (history : Option ScorerHistory) : ℚ :=
  let l2 := min (engagementRate ci * 20) 1
  match history with
  | none => l2
  | some h =>
    let old_views : Int := pyOrInt h.play_count ci.views
    let growth : ℚ := ((ci.views - old_views : Int) : ℚ) / ((max old_views 1 : Int) : ℚ)
    if growth > 0 then min growth 1 else l2 * (1 / 2)

/-- L3 Retention: `min(((bookmarks + likes * 0.1) / max(views, 1)) * 50, 1.0)`. -/
def l3Score (ci : CoercedInputs) : ℚ :=
  min (((ci.bookmarks : ℚ) + (ci.likes : ℚ) * (1 / 10)) /
    ((max ci.views 1 : Int) : ℚ) * 50) 1

/-- L4 Cascade: `min(math.log10(cascade_count + 1) / 2, 1.0)`. -/
noncomputable def l4Score (ci : CoercedInputs) : ℝ :=
  min (Real.logb 10 ((ci.cascade : ℝ) + 1) / 2) 1

/-- `total_in_db = int(history_data.get("total_sound_usage", 0)) if history_data else 0`. -/
def totalSoundUsage (history : Option ScorerHistory) : Int :=
  match history with
  | some h => h.total_sound_usage.getD 0
  | none => 0

/-- L5 Saturation: `max(1.0 - (total_in_db / 1000), 0.1)`. -/
def l5Score (history : Option ScorerHistory) : ℚ :=
  max (1 - (totalSoundUsage history : ℚ) / 1000) (1 / 10)

/-- L7 Stability:
`min(share_ratio * 100 + comment_ratio * 50, 1.0)` where the two rates are
`shares / max(views, 1)` and `comments / max(views, 1)`. -/
def l7Score (ci : CoercedInputs) : ℚ :=
  let shareRate := (ci.shares : ℚ) / ((max ci.views 1 : Int) : ℚ)
  let commentRate := (ci.comments : ℚ) / ((max ci.views 1 : Int) : ℚ)
  min (shareRate * 100 + commentRate * 50) 1

/-! ## Final-score blending and result selection
(`run_super_vision_scan`, step 7)

```python
if vision_score is not None:
    final_score = int(text_score * 0.4 + vision_score * 0.6)
else:
    final_score = text_score
```

`text_score * 0.4 + vision_score * 0.6` is evaluated in IEEE-754 binary64
arithmetic, which the definitions below model exactly on the values that
reach this line.  Both scores are integers in `[0, 100]`: Stage B clamps
every relevance score with `max(0, min(100, ...))` (and defaults to 50),
and `_parse_vision_score` clamps the vision score the same way.  The
evaluation is then: `t` and `v` convert to binary64 exactly (they are small
integers); the literals `0.4` and `0.6` denote the binary64 values
`3602879701896397 / 2^53` and `5404319552844595 / 2^53` (the nearest
doubles); each multiplication and the addition is correctly rounded (round
to nearest, ties to even); `int` truncates toward zero.

Every intermediate value is a dyadic rational `a / 2^53` with `a` of at
most 60 bits, and every nonzero one lies in the normal range `[2^-53, 2^7)`
where a numerator of at most 53 bits over `2^53` is itself exactly a
double, so: binary64 rounding of `a / 2^53` is exactly "round `a` to 53
significant bits, ties to even" (`rne53`), and the whole float evaluation
is the integer computation `pyBlendFloatNum`, whose result is the exact
numerator of the computed double over `2^53`.  `int` of that non-negative
double is numerator division by `2^53`.  (At `t = 1, v = 6` this yields
`int(3.9999999999999996) = 3`, one below the exact blend `4.0` — the model
reproduces the double rounding, not the real-number value.) -/

/-- Number of binary digits of `a` above 53, i.e. the halvings needed to
fall below `2^53 = 9007199254740992`.  The first argument is fuel only, so
that the recursion is structural and kernel-reducible; any fuel of at
least that count (we always pass `a` itself) gives the true value. -/
def excess53 : Nat → Nat → Nat
  | 0, _ => 0
  | fuel + 1, a => if a < 9007199254740992 then 0 else excess53 fuel (a / 2) + 1

/-- Round `a / 2 ^ d` to the nearest integer, ties to even. -/
def rnePow2 (a d : Nat) : Nat :=
  if d = 0 then a
  else
    let q := a / 2 ^ d
    let r := a % 2 ^ d
    let half := 2 ^ (d - 1)
    if r < half then q
    else if half < r then q + 1
    else if q % 2 = 0 then q else q + 1

/-- Binary64 rounding on numerators over the fixed denominator `2^53`:
cut `a` to 53 significant bits, round to nearest, ties to even.  Faithful
to IEEE-754 for the value range of the blend computation (see the section
comment). -/
def rne53 (a : Nat) : Nat :=
  if a < 9007199254740992 then a
  else
    let d := excess53 a a
    rnePow2 a d * 2 ^ d

/-- The numerator over `2^53` of the binary64 value of
`t * 0.4 + v * 0.6` for non-negative integers `t`, `v`. -/
def pyBlendFloatNum (t v : Nat) : Nat :=
  rne53 (rne53 (t * 3602879701896397) + rne53 (v * 5404319552844595))

/-- The blend of `run_super_vision_scan`, step 7, under the binary64
evaluation above; `int` of the non-negative double truncates toward zero,
which is numerator division by `2^53 = 9007199254740992`.  (Both scores
are non-negative in the program — they are clamped into `[0, 100]`
upstream — so the non-negative float model applies.) -/
def blendFinalScore (text_score : Int) (vision_score : Option Int) : Int :=
  match vision_score with
  | some v => Int.ofNat (pyBlendFloatNum text_score.toNat v.toNat / 9007199254740992)
  | none => text_score

/-- One in-range pair of the blend bracketing, as a Boolean check: the
stored score never exceeds the floor of the exact blend `(2t + 3v) / 5`,
is at most one below it, and equals it whenever the exact blend is not an
integer. -/
def blendPairOK (t v : Nat) : Bool :=
  let fl := (2 * t + 3 * v) / 5
  let st := pyBlendFloatNum t v / 9007199254740992
  decide (st ≤ fl) && decide (fl ≤ st + 1) &&
    ((2 * t + 3 * v) % 5 == 0 || st == fl)

/-- The blend bracketing over the whole reachable domain `[0,100]^2`. -/
def blendCheck : Bool :=
  (List.range 101).all fun t => (List.range 101).all fun v => blendPairOK t v

/-- A candidate as it reaches step 7 (`above_threshold` element): the fields
the selection loop reads. -/
structure SVCandidate where
  id : String
  platform_id : String
  relevance_score : Int
  vision_score : Option Int
deriving DecidableEq

/-- `vid_id = str(video.get("id", "") or video.get("platform_id", ""))`. -/
def svVidId (v : SVCandidate) : String := pyOrStr v.id v.platform_id

/-- One `scored_candidates` element: the candidate plus its `_final_score`. -/
structure RankedCandidate where
  video : SVCandidate
  final : Int
deriving DecidableEq

/-- The `scored_candidates` accumulation loop of step 7: blend the final
score, skip empty or within-run duplicate ids (tracked by `seen_vid_ids`,
which is extended before the DB check), skip ids already persisted for this
config (`existing`), keep the rest in order.

```python
for video in above_threshold:
    ... final_score ...
    vid_id = str(video.get("id", "") or video.get("platform_id", ""))
    if not vid_id or vid_id in seen_vid_ids:
        continue
    seen_vid_ids.add(vid_id)
    existing = db.query(SuperVisionResult).filter(config_id == ..., video_platform_id == vid_id).first()
    if existing:
        continue
    scored_candidates.append({**video, "_final_score": final_score, ...})
``` -/
def collectStep (existing : List String) (st : List String × List RankedCandidate)
    (v : SVCandidate) : List String × List RankedCandidate :=
  let vid := svVidId v
  if vid = "" ∨ vid ∈ st.1 then st
  else
    let seen := vid :: st.1
    if vid ∈ existing then (seen, st.2)
    else (seen, st.2 ++ [⟨v, blendFinalScore v.relevance_score v.vision_score⟩])

def collectScoredCandidates (existing : List String) (above : List SVCandidate) :
    List RankedCandidate :=
  (above.foldl (collectStep existing)
    (([] : List String), ([] : List RankedCandidate))).2

/-- The sort key of step 7: vision-analyzed candidates first, then by final
score, both descending (`sort(key=..., reverse=True)`). -/
def rankLE (a b : RankedCandidate) : Bool :=
  decide
    ((if b.video.vision_score = none then (0 : Int) else 1) <
        (if a.video.vision_score = none then (0 : Int) else 1) ∨
      ((if b.video.vision_score = none then (0 : Int) else 1) =
          (if a.video.vision_score = none then (0 : Int) else 1) ∧
        b.final ≤ a.final))

/-- Step 7 tail: sort `scored_candidates` and keep the leading
`max_vision_videos` (`top_candidates = scored_candidates[:max_to_store]`). -/
def selectTopCandidates (existing : List String) (above : List SVCandidate)
    (maxStore : Nat) : List RankedCandidate :=
  ((collectScoredCandidates existing above).mergeSort rankLE).take maxStore

/-- The `video_platform_id` values of the `SuperVisionResult` rows persisted
by one run. -/
def persistedIds (existing : List String) (above : List SVCandidate)
    (maxStore : Nat) : List String :=
  (selectTopCandidates existing above maxStore).map fun c => svVidId c.video

/-! ## Scrape-round filtering (`run_super_vision_scan`, steps 2-3) -/

/-- A scraped item after `parse_video_data`: its id string, its
`stats.playCount`, and its `createdAt` timestamp when one was successfully
parsed (the numeric / ISO parsing of `created_raw` is modelled as an already
decoded `Option Int` of epoch seconds). -/
structure RawItem where
  id : String
  platform_id : String
  views : Int
  createdAt : Option Int
deriving DecidableEq

/-- `if vid_int > 1000000000000000:` — the TikTok Snowflake-id validity bound. -/
def snowflakeThreshold : Int := 1000000000000000

/-- The creation-time resolution of step 3: use the parsed `createdAt` if
present, else decode the upper 32 bits of the numeric video id
(`datetime.fromtimestamp(vid_int >> 32)`), else give up. -/
def resolveCreatedTs (it : RawItem) : Option Int :=
  match it.createdAt with
  | some t => some t
  | none =>
    match it.id.toInt? with
    | some n => if n > snowflakeThreshold then some (n / 2 ^ 32) else none
    | none => none

/-- One scrape round of step 3 over `raw_items`: dedup by raw id across
rounds (`seen_ids`), drop items under `min_views`, drop items without a
resolvable creation date or older than the cutoff, drop items whose id
already has a persisted `SuperVisionResult` row (`existing`), append the
rest.  Returns the grown `seen_ids` and the accepted items of this round. -/
def scrapeStep (minViews cutoffDate : Int) (existing : List String)
    (st : List String × List RawItem) (item : RawItem) : List String × List RawItem :=
  if item.id ∈ st.1 then st
  else
    let seen := item.id :: st.1
    if item.views < minViews then (seen, st.2)
    else
      match resolveCreatedTs item with
      | none => (seen, st.2)
      | some ts =>
        if ts < cutoffDate then (seen, st.2)
        else
          let vid := pyOrStr item.id item.platform_id
          if vid ≠ "" ∧ vid ∈ existing then (seen, st.2)
          else (seen, st.2 ++ [item])

def scrapeRoundFilter (minViews cutoffDate : Int) (existing : List String)
    (seen : List String) (items : List RawItem) : List String × List RawItem :=
  items.foldl (scrapeStep minViews cutoffDate existing) (seen, [])

/-! ## Vision-phase accounting (`run_super_vision_scan`, step 6)

`vision_analyzed` is incremented only after `analyze_video_with_gemini`
returns; a candidate without a URL is skipped before any call, and a
per-candidate exception is caught without incrementing. -/

/-- The URL fields step 6 reads:
`video.get("url", "") or video.get("webVideoUrl", "")`. -/
structure VisionCand where
  url : String
  webVideoUrl : String
deriving DecidableEq

def visionUrl (v : VisionCand) : String := pyOrStr v.url v.webVideoUrl

/-- The `vision_analyzed` counter after the step-6 loop: one per candidate
with a non-empty URL whose deep-analysis call (outcome indexed by position)
returned instead of raising. -/
def visionAnalyzedCount (cands : List VisionCand)
    (outcomes : Nat → Except String String) : Nat :=
  (cands.enum.filter fun p =>
    decide (visionUrl p.2 ≠ "" ∧ (outcomes p.1).isOk = true)).length

/-! ## Config failure / success transitions (`run_super_vision_scan`) -/

/-- `SuperVisionStatus`. -/
inductive SVStatus where
  | active
  | paused
  | error
deriving DecidableEq

/-- The `SuperVisionConfig` columns the failure and success paths touch
(all nullable columns as `Option`; `next_run_at` as epoch seconds; the
omitted observability columns `last_run_at` / `last_run_stats` play no role
in the claims). -/
structure SVConfigState where
  status : SVStatus
  consecutive_errors : Option Nat
  last_error : Option String
  last_run_status : Option String
  next_run_at : Option Int
  scheduler_job_id : Option String
deriving DecidableEq

/-- The top-level `except` block of `run_super_vision_scan`:

```python
config.last_run_status = "failed"
config.consecutive_errors = (config.consecutive_errors or 0) + 1
config.last_error = str(e)[:500]
config.next_run_at = datetime.utcnow() + timedelta(hours=config.scan_interval_hours)
if config.consecutive_errors >= 3:
    config.status = SuperVisionStatus.ERROR
    if config.scheduler_job_id:
        remove_super_vision_job(config.scheduler_job_id)
        config.scheduler_job_id = None
```

The returned `Bool` records whether `remove_super_vision_job` was called. -/
def pyTruthyStr (x : Option String) : Bool :=
  match x with
  | some s => !(s == "")
  | none => false

def failTransition (c : SVConfigState) (errMsg : String) (now intervalHours : Int) :
    SVConfigState × Bool :=
  let errs := c.consecutive_errors.getD 0 + 1
  let c1 := { c with
    last_run_status := some "failed"
    consecutive_errors := some errs
    last_error := some (errMsg.take 500)
    next_run_at := some (now + intervalHours * 3600) }
  if errs ≥ 3 then
    if pyTruthyStr c1.scheduler_job_id then
      ({ c1 with status := .error, scheduler_job_id := none }, true)
    else ({ c1 with status := .error }, false)
  else (c1, false)

/-- The success epilogue of `run_super_vision_scan` (end of the `try` block):

```python
config.last_run_status = "success"
config.consecutive_errors = 0
config.last_error = None
config.next_run_at = datetime.utcnow() + timedelta(hours=config.scan_interval_hours)
``` -/
def successTransition (c : SVConfigState) (now intervalHours : Int) : SVConfigState :=
  { c with
    last_run_status := some "success"
    consecutive_errors := some 0
    last_error := none
    next_run_at := some (now + intervalHours * 3600) }

/-- A nullable input whose supplied value, if any, is non-negative. -/
abbrev nonnegOpt (x : Option Int) : Prop := 0 ≤ x.getD 0

/-! ## Concrete example data (used by counterexamples and witnesses) -/

/-- Eight candidate videos, as left by the metadata prefilter. -/
def exVideos8 : List PFVideo :=
  [⟨"a", "a"⟩, ⟨"b", "b"⟩, ⟨"c", "c"⟩, ⟨"d", "d"⟩,
   ⟨"e", "e"⟩, ⟨"f", "f"⟩, ⟨"g", "g"⟩, ⟨"h", "h"⟩]

/-- A fresh cache row (scored at time 1000) for each of `exVideos8`. -/
def exRows8 : List CacheRow :=
  [⟨"a", 70, none, 1000⟩, ⟨"b", 70, none, 1000⟩, ⟨"c", 70, none, 1000⟩,
   ⟨"d", 70, none, 1000⟩, ⟨"e", 70, none, 1000⟩, ⟨"f", 70, none, 1000⟩,
   ⟨"g", 70, none, 1000⟩, ⟨"h", 70, none, 1000⟩]

/-! # Theorems -/

/-! ## Helper lemmas -/

theorem chunkAux_length (fuel : Nat) :
    ∀ l : List PFVideo, l.length ≤ fuel →
      (chunkAux fuel l).length = (l.length + 7) / 8 := by
  induction fuel with
  | zero =>
    intro l h
    cases l with
    | nil => simp [chunkAux]
    | cons v rest => simp at h
  | succ fuel ih =>
    intro l h
    cases l with
    | nil => simp [chunkAux]
    | cons v rest =>
      have hlen : rest.length + 1 ≤ fuel + 1 := by simpa using h
      have hdrop : (rest.drop (BATCH_SIZE - 1)).length ≤ fuel := by
        simp [List.length_drop]
        omega
      simp only [chunkAux, List.length_cons]
      rw [ih _ hdrop]
      simp only [List.length_drop, BATCH_SIZE]
      omega

theorem chunkBatches_length (l : List PFVideo) :
    (chunkBatches l).length = (l.length + 7) / 8 :=
  chunkAux_length l.length l le_rfl

theorem chunkAux_flatten (fuel : Nat) :
    ∀ l : List PFVideo, l.length ≤ fuel → (chunkAux fuel l).flatten = l := by
  induction fuel with
  | zero =>
    intro l h
    cases l with
    | nil => simp [chunkAux]
    | cons v rest => simp at h
  | succ fuel ih =>
    intro l h
    cases l with
    | nil => simp [chunkAux]
    | cons v rest =>
      have hlen : rest.length + 1 ≤ fuel + 1 := by simpa using h
      have hdrop : (rest.drop (BATCH_SIZE - 1)).length ≤ fuel := by
        simp [List.length_drop]
        omega
      simp only [chunkAux, List.flatten_cons, ih _ hdrop]
      simp [List.take_append_drop]

theorem chunkBatches_flatten (l : List PFVideo) : (chunkBatches l).flatten = l :=
  chunkAux_flatten l.length l le_rfl

theorem length_filter_enumFrom {α : Type} (f : α → Bool) :
    ∀ (l : List α) (n : Nat),
      ((List.enumFrom n l).filter fun p => f p.2).length = (l.filter f).length := by
  intro l
  induction l with
  | nil => intro n; rfl
  | cons a rest ih =>
    intro n
    simp only [List.enumFrom, List.filter]
    cases f a <;> simp [ih (n + 1)]

/-- C2: for every non-negative credit pool state and every non-negative run
cost, the deduction step drains bonus first, then rollover, then main: a
bucket shrinks only when every higher-priority bucket was fully drained, no
bucket ends negative, the total amount drained is `min cost total`, and when
the cost reaches the total balance every bucket ends at exactly zero. -/
theorem deductCredits_drains_in_order (b r m cost : Int)
    (hb : 0 ≤ b) (hr : 0 ≤ r) (hm : 0 ≤ m) (hc : 0 ≤ cost) :
    ∃ b2 r2 m2,
      deductCredits (some b) (some r) (some m) cost = (some b2, some r2, some m2) ∧
      0 ≤ b2 ∧ 0 ≤ r2 ∧ 0 ≤ m2 ∧ b2 ≤ b ∧ r2 ≤ r ∧ m2 ≤ m ∧
      (r2 < r → b2 = 0) ∧ (m2 < m → b2 = 0 ∧ r2 = 0) ∧
      (b + r + m) - (b2 + r2 + m2) = min cost (b + r + m) ∧
      (b + r + m ≤ cost → b2 = 0 ∧ r2 = 0 ∧ m2 = 0) := by
  simp only [deductCredits, pyOrInt]
  split_ifs <;>
    exact ⟨_, _, _, rfl, by omega, by omega, by omega, by omega, by omega, by omega,
      by omega, by omega, by omega, by omega⟩

/-- Witness for C2 at a concrete pool `(5, 4, 3)` and cost `20` exceeding
the total balance. -/
theorem deductCredits_drains_in_order_witness :
    ∃ b2 r2 m2,
      deductCredits (some 5) (some 4) (some 3) 20 = (some b2, some r2, some m2) ∧
      0 ≤ b2 ∧ 0 ≤ r2 ∧ 0 ≤ m2 ∧ b2 ≤ 5 ∧ r2 ≤ 4 ∧ m2 ≤ 3 ∧
      (r2 < 4 → b2 = 0) ∧ (m2 < 3 → b2 = 0 ∧ r2 = 0) ∧
      (5 + 4 + 3 : Int) - (b2 + r2 + m2) = min 20 (5 + 4 + 3) ∧
      ((5 + 4 + 3 : Int) ≤ 20 → b2 = 0 ∧ r2 = 0 ∧ m2 = 0) :=
  deductCredits_drains_in_order 5 4 3 20 (by norm_num) (by norm_num) (by norm_num)
    (by norm_num)

/-! ## C4 — run-cost computation -/

/-- C4 counterexample: a run whose eight post-metadata candidates are all
served from a fresh relevance cache issues zero Stage-B Gemini calls, yet
`_calculate_credits` still bills one batch — the computed cost is 4, not the
`2 + 2 × (batches invoked) + 5 × (vision calls)` = 2 the claim predicts. -/
theorem calculateCredits_bills_cached_batches :
    geminiCallCount exVideos8 exRows8 1000 true = 0 ∧
    calculateCredits 8 0 = 4 ∧
    calculateCredits 8 0 ≠ 2 + 2 * geminiCallCount exVideos8 exRows8 1000 true + 5 * 0 := by
  refine ⟨by decide, by decide, ?_⟩
  decide

/-- C4 (amended): the run cost equals the fixed base 2, plus 2 per Stage-B
batch formed from the post-metadata candidate count — which equals the number
of batches actually invoked precisely when no candidate is served from the
cache (here: an empty cache table) — plus 5 per successful Stage-C
invocation; a failed Stage-C invocation is never counted by
`vision_analyzed`, and an all-successful vision phase counts exactly the
candidates holding a URL. -/
theorem calculateCredits_amended :
    (∀ (videos : List PFVideo) (now : Int) (va : Nat),
        calculateCredits videos.length va =
          2 + 2 * geminiCallCount videos [] now true + 5 * va) ∧
    (∀ (cands : List VisionCand) (msg : Nat → String),
        visionAnalyzedCount cands (fun i => Except.error (msg i)) = 0) ∧
    (∀ (cands : List VisionCand) (txt : Nat → String),
        visionAnalyzedCount cands (fun i => Except.ok (txt i)) =
          (cands.filter fun c => visionUrl c ≠ "").length) := by
  refine ⟨?_, ?_, ?_⟩
  · intro videos now va
    have huncached : uncachedVideos videos [] now = videos := by
      apply List.filter_eq_self.mpr
      intro v _
      simp [freshRow, List.find?]
    have hcall : geminiCallCount videos [] now true = (videos.length + 7) / 8 := by
      simp [geminiCallCount, huncached, chunkBatches_length]
    rw [hcall]
    simp only [calculateCredits]
    split_ifs with h
    · omega
    · omega
  · intro cands msg
    have hpred : (fun p : Nat × VisionCand =>
        decide (visionUrl p.2 ≠ "" ∧
          (Except.error (msg p.1) : Except String String).isOk = true)) =
        fun _ => false := by
      funext p
      simp [Except.isOk, Except.toBool]
    simp only [visionAnalyzedCount]
    rw [hpred]
    simp
  · intro cands txt
    have hpred : (fun p : Nat × VisionCand =>
        decide (visionUrl p.2 ≠ "" ∧
          (Except.ok (txt p.1) : Except String String).isOk = true)) =
        fun p => decide (visionUrl p.2 ≠ "") := by
      funext p
      simp [Except.isOk, Except.toBool]
    simp only [visionAnalyzedCount, hpred, List.enum]
    exact length_filter_enumFrom (fun c => decide (visionUrl c ≠ "")) cands 0

/-! ## Scorer helper lemmas -/

theorem pyOrInt_one_le (x : Option Int) (h : nonnegOpt x) : 1 ≤ pyOrInt x 1 := by
  cases x with
  | none => norm_num [pyOrInt]
  | some v =>
    simp only [nonnegOpt, Option.getD] at h
    by_cases hv : v = 0 <;> simp [pyOrInt, hv] <;> omega

theorem pyOrInt_nonneg (x : Option Int) (h : nonnegOpt x) : 0 ≤ pyOrInt x 0 := by
  cases x with
  | none => norm_num [pyOrInt]
  | some v =>
    simp only [nonnegOpt, Option.getD] at h
    by_cases hv : v = 0 <;> simp [pyOrInt, hv] <;> omega

theorem castMax_pos (a : Int) : (0:ℚ) < ((max a 1 : Int) : ℚ) := by
  exact_mod_cast lt_of_lt_of_le Int.zero_lt_one (le_max_right a 1)

theorem l1Score_bounds (ci : CoercedInputs) (hv : 0 ≤ ci.views) :
    0 ≤ l1Score ci ∧ l1Score ci ≤ 1 := by
  constructor
  · apply le_min _ zero_le_one
    apply div_nonneg _ (by norm_num)
    exact div_nonneg (by exact_mod_cast hv) (le_of_lt (castMax_pos _))
  · exact min_le_right _ _

theorem engagementRate_nonneg (ci : CoercedInputs) (hb : 0 ≤ ci.bookmarks)
    (hs : 0 ≤ ci.shares) (hl : 0 ≤ ci.likes) (hc : 0 ≤ ci.comments) :
    0 ≤ engagementRate ci := by
  apply div_nonneg _ (le_of_lt (castMax_pos _))
  exact_mod_cast by omega

theorem l2Score_bounds (ci : CoercedInputs) (history : Option ScorerHistory)
    (hb : 0 ≤ ci.bookmarks) (hs : 0 ≤ ci.shares) (hl : 0 ≤ ci.likes)
    (hc : 0 ≤ ci.comments) :
    0 ≤ l2Score ci history ∧ l2Score ci history ≤ 1 := by
  have hbase : 0 ≤ min (engagementRate ci * 20) 1 ∧ min (engagementRate ci * 20) 1 ≤ 1 :=
    ⟨le_min (mul_nonneg (engagementRate_nonneg ci hb hs hl hc) (by norm_num)) zero_le_one,
      min_le_right _ _⟩
  cases history with
  | none => exact hbase
  | some h =>
    simp only [l2Score]
    split_ifs with hg
    · exact ⟨le_min (le_of_lt hg) zero_le_one, min_le_right _ _⟩
    · constructor
      · exact mul_nonneg hbase.1 (by norm_num)
      · calc min (engagementRate ci * 20) 1 * (1 / 2) ≤ 1 * (1 / 2) := by
              exact mul_le_mul_of_nonneg_right hbase.2 (by norm_num)
          _ ≤ 1 := by norm_num

theorem l3Score_bounds (ci : CoercedInputs) (hb : 0 ≤ ci.bookmarks) (hl : 0 ≤ ci.likes) :
    0 ≤ l3Score ci ∧ l3Score ci ≤ 1 := by
  constructor
  · apply le_min _ zero_le_one
    apply mul_nonneg _ (by norm_num)
    apply div_nonneg _ (le_of_lt (castMax_pos _))
    have hb2 : (0:ℚ) ≤ (ci.bookmarks : ℚ) := by exact_mod_cast hb
    have hl2 : (0:ℚ) ≤ (ci.likes : ℚ) := by exact_mod_cast hl
    nlinarith
  · exact min_le_right _ _

theorem l4Score_bounds (ci : CoercedInputs) (hcas : 1 ≤ ci.cascade) :
    0 ≤ l4Score ci ∧ l4Score ci ≤ 1 := by
  constructor
  · apply le_min _ zero_le_one
    apply div_nonneg _ (by norm_num)
    apply Real.logb_nonneg (by norm_num)
    have : (1:ℝ) ≤ (ci.cascade : ℝ) := by exact_mod_cast hcas
    linarith
  · exact min_le_right _ _

theorem l5Score_bounds (history : Option ScorerHistory)
    (ht : nonnegOpt (history.bind fun h => h.total_sound_usage)) :
    1 / 10 ≤ l5Score history ∧ l5Score history ≤ 1 := by
  have htot : 0 ≤ totalSoundUsage history := by
    cases history with
    | none => norm_num [totalSoundUsage]
    | some h => simpa [totalSoundUsage, nonnegOpt, Option.bind] using ht
  refine ⟨le_max_right _ _, max_le ?_ (by norm_num)⟩
  have : (0:ℚ) ≤ (totalSoundUsage history : ℚ) / 1000 :=
    div_nonneg (by exact_mod_cast htot) (by norm_num)
  linarith

theorem l7Score_bounds (ci : CoercedInputs) (hs : 0 ≤ ci.shares) (hc : 0 ≤ ci.comments) :
    0 ≤ l7Score ci ∧ l7Score ci ≤ 1 := by
  constructor
  · apply le_min _ zero_le_one
    have h1 : (0:ℚ) ≤ (ci.shares : ℚ) / ((max ci.views 1 : Int) : ℚ) :=
      div_nonneg (by exact_mod_cast hs) (le_of_lt (castMax_pos _))
    have h2 : (0:ℚ) ≤ (ci.comments : ℚ) / ((max ci.views 1 : Int) : ℚ) :=
      div_nonneg (by exact_mod_cast hc) (le_of_lt (castMax_pos _))
    nlinarith
  · exact min_le_right _ _

/-! ## C7 — input coercion of the scorer -/

/-- C7 counterexample: the coercion `int(video_data.get("likes") or 0)` keeps
a supplied negative value, so the coerced inputs are not non-negative: with
`likes = -1` the coerced `likes` is `-1 < 0`. -/
theorem coerceInputs_keeps_negative :
    (coerceInputs ⟨none, none, none, none, some (-1), none⟩ 1).likes = -1 ∧
    ¬ (0 ≤ (coerceInputs ⟨none, none, none, none, some (-1), none⟩ 1).likes) := by
  constructor
  · decide
  · decide

/-- C7 (amended): whenever every supplied engagement value is non-negative,
the coercion yields non-negative integers; a missing or null value defaults
to 0, except follower count and view count (and the cascade count) which
default to 1 — and in fact views, followers and cascade are always coerced
to at least 1, so every denominator is at least 1. -/
theorem coerceInputs_defaults (d : ScorerInput) (cascade : Int)
    (hv : nonnegOpt d.views) (hf : nonnegOpt d.author_followers)
    (hb : nonnegOpt d.collect_count) (hs : nonnegOpt d.share_count)
    (hl : nonnegOpt d.likes) (hc : nonnegOpt d.comments) (hcas : 0 ≤ cascade) :
    (d.views = none → (coerceInputs d cascade).views = 1) ∧
    (d.author_followers = none → (coerceInputs d cascade).followers = 1) ∧
    (d.collect_count = none → (coerceInputs d cascade).bookmarks = 0) ∧
    (d.share_count = none → (coerceInputs d cascade).shares = 0) ∧
    (d.likes = none → (coerceInputs d cascade).likes = 0) ∧
    (d.comments = none → (coerceInputs d cascade).comments = 0) ∧
    1 ≤ (coerceInputs d cascade).views ∧
    1 ≤ (coerceInputs d cascade).followers ∧
    0 ≤ (coerceInputs d cascade).bookmarks ∧
    0 ≤ (coerceInputs d cascade).shares ∧
    0 ≤ (coerceInputs d cascade).likes ∧
    0 ≤ (coerceInputs d cascade).comments ∧
    1 ≤ (coerceInputs d cascade).cascade := by
  refine ⟨fun h => by simp [coerceInputs, h, pyOrInt],
    fun h => by simp [coerceInputs, h, pyOrInt],
    fun h => by simp [coerceInputs, h, pyOrInt],
    fun h => by simp [coerceInputs, h, pyOrInt],
    fun h => by simp [coerceInputs, h, pyOrInt],
    fun h => by simp [coerceInputs, h, pyOrInt],
    pyOrInt_one_le d.views hv,
    pyOrInt_one_le d.author_followers hf,
    pyOrInt_nonneg d.collect_count hb,
    pyOrInt_nonneg d.share_count hs,
    pyOrInt_nonneg d.likes hl,
    pyOrInt_nonneg d.comments hc,
    pyOrInt_one_le (some cascade) (by simpa [nonnegOpt] using hcas)⟩

/-- Witness for C7 at a concrete snapshot with absent followers, zero views
and a zero cascade count. -/
theorem coerceInputs_defaults_witness :
    ((⟨some 0, none, some 0, none, some 7, none⟩ : ScorerInput).views = none →
      (coerceInputs ⟨some 0, none, some 0, none, some 7, none⟩ 0).views = 1) ∧
    ((⟨some 0, none, some 0, none, some 7, none⟩ : ScorerInput).author_followers = none →
      (coerceInputs ⟨some 0, none, some 0, none, some 7, none⟩ 0).followers = 1) ∧
    ((⟨some 0, none, some 0, none, some 7, none⟩ : ScorerInput).collect_count = none →
      (coerceInputs ⟨some 0, none, some 0, none, some 7, none⟩ 0).bookmarks = 0) ∧
    ((⟨some 0, none, some 0, none, some 7, none⟩ : ScorerInput).share_count = none →
      (coerceInputs ⟨some 0, none, some 0, none, some 7, none⟩ 0).shares = 0) ∧
    ((⟨some 0, none, some 0, none, some 7, none⟩ : ScorerInput).likes = none →
      (coerceInputs ⟨some 0, none, some 0, none, some 7, none⟩ 0).likes = 0) ∧
    ((⟨some 0, none, some 0, none, some 7, none⟩ : ScorerInput).comments = none →
      (coerceInputs ⟨some 0, none, some 0, none, some 7, none⟩ 0).comments = 0) ∧
    1 ≤ (coerceInputs ⟨some 0, none, some 0, none, some 7, none⟩ 0).views ∧
    1 ≤ (coerceInputs ⟨some 0, none, some 0, none, some 7, none⟩ 0).followers ∧
    0 ≤ (coerceInputs ⟨some 0, none, some 0, none, some 7, none⟩ 0).bookmarks ∧
    0 ≤ (coerceInputs ⟨some 0, none, some 0, none, some 7, none⟩ 0).shares ∧
    0 ≤ (coerceInputs ⟨some 0, none, some 0, none, some 7, none⟩ 0).likes ∧
    0 ≤ (coerceInputs ⟨some 0, none, some 0, none, some 7, none⟩ 0).comments ∧
    1 ≤ (coerceInputs ⟨some 0, none, some 0, none, some 7, none⟩ 0).cascade :=
  coerceInputs_defaults ⟨some 0, none, some 0, none, some 7, none⟩ 0
    (by decide) (by decide) (by decide) (by decide) (by decide) (by decide) (by decide)

/-! ## C8 — layer bounds of the scorer -/

/-- C8 counterexample: at a supplied negative engagement value
(`likes = -1000`, `views = 100`) the L2 layer evaluates to `-200`, far below
its stated floor 0 — the caps only hold for non-negative inputs. -/
theorem l2Score_below_floor :
    l2Score (coerceInputs ⟨some 100, none, none, none, some (-1000), none⟩ 1) none < 0 := by
  have her : engagementRate (coerceInputs ⟨some 100, none, none, none, some (-1000), none⟩ 1)
      = -10 := by
    norm_num [engagementRate, coerceInputs, pyOrInt]
  simp only [l2Score, her]
  norm_num [min_def]

/-- C8 (amended): for every input whose supplied values are non-negative
(including zero followers and zero views), each layer stays within its
stated floor/cap — L1, L2, L3, L4 and L7 in `[0, 1]`, L5 in `[0.1, 1]` —
and every division is guarded by a denominator of at least 1. -/
theorem scorer_layers_within_caps (d : ScorerInput) (history : Option ScorerHistory)
    (cascade : Int)
    (hv : nonnegOpt d.views) (hf : nonnegOpt d.author_followers)
    (hb : nonnegOpt d.collect_count) (hs : nonnegOpt d.share_count)
    (hl : nonnegOpt d.likes) (hc : nonnegOpt d.comments) (hcas : 0 ≤ cascade)
    (ht : nonnegOpt (history.bind fun h => h.total_sound_usage)) :
    (0 ≤ l1Score (coerceInputs d cascade) ∧ l1Score (coerceInputs d cascade) ≤ 1) ∧
    (0 ≤ l2Score (coerceInputs d cascade) history ∧
      l2Score (coerceInputs d cascade) history ≤ 1) ∧
    (0 ≤ l3Score (coerceInputs d cascade) ∧ l3Score (coerceInputs d cascade) ≤ 1) ∧
    (0 ≤ l4Score (coerceInputs d cascade) ∧ l4Score (coerceInputs d cascade) ≤ 1) ∧
    (1 / 10 ≤ l5Score history ∧ l5Score history ≤ 1) ∧
    (0 ≤ l7Score (coerceInputs d cascade) ∧ l7Score (coerceInputs d cascade) ≤ 1) ∧
    1 ≤ max (coerceInputs d cascade).followers 1 ∧
    1 ≤ max (coerceInputs d cascade).views 1 := by
  have h1 : 1 ≤ (coerceInputs d cascade).views := pyOrInt_one_le d.views hv
  have h3 : 0 ≤ (coerceInputs d cascade).bookmarks := pyOrInt_nonneg d.collect_count hb
  have h4 : 0 ≤ (coerceInputs d cascade).shares := pyOrInt_nonneg d.share_count hs
  have h5 : 0 ≤ (coerceInputs d cascade).likes := pyOrInt_nonneg d.likes hl
  have h6 : 0 ≤ (coerceInputs d cascade).comments := pyOrInt_nonneg d.comments hc
  have h7 : 1 ≤ (coerceInputs d cascade).cascade :=
    pyOrInt_one_le (some cascade) (by simpa [nonnegOpt] using hcas)
  exact ⟨l1Score_bounds _ (by omega), l2Score_bounds _ _ h3 h4 h5 h6,
    l3Score_bounds _ h3 h5, l4Score_bounds _ h7, l5Score_bounds _ ht,
    l7Score_bounds _ h4 h6, le_max_right _ _, le_max_right _ _⟩

/-- Witness for C8 at zero views, zero followers, zero cascade and a
present history. -/
theorem scorer_layers_within_caps_witness :
    (0 ≤ l1Score (coerceInputs ⟨some 0, some 0, none, none, some 3, some 2⟩ 0) ∧
      l1Score (coerceInputs ⟨some 0, some 0, none, none, some 3, some 2⟩ 0) ≤ 1) ∧
    (0 ≤ l2Score (coerceInputs ⟨some 0, some 0, none, none, some 3, some 2⟩ 0)
        (some ⟨some 50, some 100⟩) ∧
      l2Score (coerceInputs ⟨some 0, some 0, none, none, some 3, some 2⟩ 0)
        (some ⟨some 50, some 100⟩) ≤ 1) ∧
    (0 ≤ l3Score (coerceInputs ⟨some 0, some 0, none, none, some 3, some 2⟩ 0) ∧
      l3Score (coerceInputs ⟨some 0, some 0, none, none, some 3, some 2⟩ 0) ≤ 1) ∧
    (0 ≤ l4Score (coerceInputs ⟨some 0, some 0, none, none, some 3, some 2⟩ 0) ∧
      l4Score (coerceInputs ⟨some 0, some 0, none, none, some 3, some 2⟩ 0) ≤ 1) ∧
    (1 / 10 ≤ l5Score (some ⟨some 50, some 100⟩) ∧
      l5Score (some ⟨some 50, some 100⟩) ≤ 1) ∧
    (0 ≤ l7Score (coerceInputs ⟨some 0, some 0, none, none, some 3, some 2⟩ 0) ∧
      l7Score (coerceInputs ⟨some 0, some 0, none, none, some 3, some 2⟩ 0) ≤ 1) ∧
    1 ≤ max (coerceInputs ⟨some 0, some 0, none, none, some 3, some 2⟩ 0).followers 1 ∧
    1 ≤ max (coerceInputs ⟨some 0, some 0, none, none, some 3, some 2⟩ 0).views 1 :=
  scorer_layers_within_caps ⟨some 0, some 0, none, none, some 3, some 2⟩
    (some ⟨some 50, some 100⟩) 0 (by decide) (by decide) (by decide) (by decide)
    (by decide) (by decide) (by decide) (by decide)

/-! ## C9 — final-score blending -/

/-- C9 counterexample: at `relevance = 51`, `vision = 50` the code stores
`int(51*0.4 + 50*0.6) = 50`, while the claimed blend `51×0.4 + 50×0.6` is
`50.4` — the stored final score is the truncation of the blend, not the
blend itself. -/
theorem blendFinalScore_truncates :
    blendFinalScore 51 (some 50) = 50 ∧
    ((blendFinalScore 51 (some 50) : ℚ) ≠ (51 : ℚ) * (4 / 10) + (50 : ℚ) * (6 / 10)) := by
  have h : blendFinalScore 51 (some 50) = 50 := by decide
  refine ⟨h, ?_⟩
  rw [h]
  norm_num

set_option maxRecDepth 10000 in
set_option maxHeartbeats 1000000 in
theorem blendCheck_true : blendCheck = true := by decide

theorem blendFinalScore_natCast (t v : Nat) :
    blendFinalScore t (some v)
      = ((pyBlendFloatNum t v / 9007199254740992 : Nat) : Int) := by
  simp [blendFinalScore]

/-- C9 (amended): with a vision score present, the stored final score is
`int(relevance*0.4 + vision*0.6)` evaluated in binary64: over the whole
in-range domain (both scores are clamped into `[0, 100]` upstream) it
equals the floor of the exact blend `(2·relevance + 3·vision)/5` whenever
that blend is not an integer, and in general lies within one below that
floor (double rounding stores one less at 32 integral-blend pairs, e.g.
`int(1*0.4 + 6*0.6) = 3`); without a vision score it is the relevance
score exactly.  The first conjunct identifies the exact-blend floor with
`(2t + 3v) / 5` in integer division. -/
theorem blendFinalScore_ieee_bracket :
    (∀ t : Nat, t ≤ 100 → ∀ v : Nat, v ≤ 100 →
      ⌊(t : ℚ) * (4 / 10) + (v : ℚ) * (6 / 10)⌋ = (((2 * t + 3 * v) / 5 : Nat) : Int) ∧
      blendFinalScore t (some v) ≤ (((2 * t + 3 * v) / 5 : Nat) : Int) ∧
      (((2 * t + 3 * v) / 5 : Nat) : Int) - 1 ≤ blendFinalScore t (some v) ∧
      ((2 * t + 3 * v) % 5 ≠ 0 →
        blendFinalScore t (some v) = (((2 * t + 3 * v) / 5 : Nat) : Int))) ∧
    (∀ t : Int, blendFinalScore t none = t) := by
  refine ⟨fun t ht v hv => ?_, fun t => rfl⟩
  have hok : blendPairOK t v = true := by
    have h0 := blendCheck_true
    simp only [blendCheck, List.all_eq_true] at h0
    exact h0 t (List.mem_range.mpr (by omega)) v (List.mem_range.mpr (by omega))
  simp only [blendPairOK, Bool.and_eq_true, Bool.or_eq_true, decide_eq_true_eq,
    beq_iff_eq] at hok
  obtain ⟨⟨h1, h2⟩, h3⟩ := hok
  rw [blendFinalScore_natCast t v]
  refine ⟨?_, by omega, by omega, fun hm => by omega⟩
  have he : (t : ℚ) * (4 / 10) + (v : ℚ) * (6 / 10)
      = (((2 * t + 3 * v : Nat)) : ℚ) / ((5 : Nat) : ℚ) := by
    push_cast
    ring
  rw [he, ← Int.natCast_floor_eq_floor (by positivity), Nat.floor_div_eq_div]

/-- Witness for C9 at `relevance = 70`, `vision = 90` (a non-integral
blend, stored exactly at the floor 82) and a vision-less candidate. -/
theorem blendFinalScore_ieee_bracket_witness :
    (⌊((70 : Nat) : ℚ) * (4 / 10) + ((90 : Nat) : ℚ) * (6 / 10)⌋
        = (((2 * 70 + 3 * 90) / 5 : Nat) : Int) ∧
      blendFinalScore (70 : Nat) (some ((90 : Nat) : Int))
          ≤ (((2 * 70 + 3 * 90) / 5 : Nat) : Int) ∧
      (((2 * 70 + 3 * 90) / 5 : Nat) : Int) - 1
          ≤ blendFinalScore (70 : Nat) (some ((90 : Nat) : Int)) ∧
      ((2 * 70 + 3 * 90) % 5 ≠ 0 →
        blendFinalScore (70 : Nat) (some ((90 : Nat) : Int))
            = (((2 * 70 + 3 * 90) / 5 : Nat) : Int))) ∧
    blendFinalScore 5 none = 5 :=
  ⟨blendFinalScore_ieee_bracket.1 70 (by norm_num) 90 (by norm_num),
    blendFinalScore_ieee_bracket.2 5⟩

/-! ## Score-dictionary helper lemmas -/

theorem dictInsert_eq (d : ScoreDict) (k q : String) (v : ScoreEntry) :
    dictInsert d k v q = if q = k then some v else d q := rfl

theorem fillUnscored_preserves_some (ids : List String) :
    ∀ (d : ScoreDict) (k : String) (e : ScoreEntry), d k = some e →
      (ids.foldl fillUnscored d) k = some e := by
  induction ids with
  | nil => intro d k e h; exact h
  | cons i rest ih =>
    intro d k e h
    simp only [List.foldl]
    cases hd : d i with
    | none =>
      apply ih
      simp only [fillUnscored, hd, dictInsert_eq]
      split_ifs with hk
      · subst hk; rw [h] at hd; cases hd
      · exact h
    | some w =>
      simp only [fillUnscored, hd]
      exact ih d k e h

theorem fillUnscored_mem (ids : List String) :
    ∀ (d : ScoreDict) (k : String), k ∈ ids → d k = none →
      (ids.foldl fillUnscored d) k = some ⟨50, "unscored"⟩ := by
  induction ids with
  | nil => intro d k h; cases h
  | cons i rest ih =>
    intro d k hk hd
    simp only [List.foldl]
    by_cases hki : k = i
    · subst hki
      rw [show fillUnscored d k = dictInsert d k ⟨50, "unscored"⟩ from by
        simp [fillUnscored, hd]]
      exact fillUnscored_preserves_some rest _ k _ (by simp [dictInsert_eq])
    · have hkr : k ∈ rest := by
        cases List.mem_cons.mp hk with
        | inl h => exact absurd h hki
        | inr h => exact h
      cases hdi : d i with
      | none =>
        rw [show fillUnscored d i = dictInsert d i ⟨50, "unscored"⟩ from by
          simp [fillUnscored, hdi]]
        exact ih _ k hkr (by simp [dictInsert_eq, hki, hd])
      | some w =>
        rw [show fillUnscored d i = d from by simp [fillUnscored, hdi]]
        exact ih d k hkr hd

/-- Folding dictionary updates preserves a property of every stored entry,
provided each step does. -/
theorem foldl_dict_prop {β : Type} (P : ScoreEntry → Prop) (f : ScoreDict → β → ScoreDict)
    (hf : ∀ (d : ScoreDict) (b : β) (k : String) (e : ScoreEntry),
      (∀ k2 e2, d k2 = some e2 → P e2) → f d b k = some e → P e) :
    ∀ (l : List β) (d : ScoreDict),
      (∀ k e, d k = some e → P e) →
      ∀ k e, (l.foldl f d) k = some e → P e := by
  intro l
  induction l with
  | nil => intro d hd k e h; exact hd k e h
  | cons b rest ih =>
    intro d hd k e h
    exact ih (f d b) (fun k2 e2 h2 => hf d b k2 e2 hd h2) k e h

theorem clampScore_range (s : Int) : 0 ≤ clampScore s ∧ clampScore s ≤ 100 := by
  simp only [clampScore]
  omega

/-- Every entry a `_score_batch` dict holds has a score in `[0, 100]`. -/
theorem scoreBatch_some_range (videos : List PFVideo) (outcome : GeminiOutcome)
    (k : String) (e : ScoreEntry) (h : scoreBatch videos outcome k = some e) :
    0 ≤ e.score ∧ e.score ≤ 100 := by
  cases outcome with
  | raises msg =>
    simp only [scoreBatch] at h
    split_ifs at h with hk
    cases h
    exact ⟨by norm_num, by norm_num⟩
  | returns parsed =>
    simp only [scoreBatch] at h
    have hinsert : ∀ (d : ScoreDict) (item : ScoreItem) (k2 : String) (e2 : ScoreEntry),
        (∀ k3 e3, d k3 = some e3 → 0 ≤ e3.score ∧ e3.score ≤ 100) →
        insertItemScore (batchPids videos) d item k2 = some e2 →
        0 ≤ e2.score ∧ e2.score ≤ 100 := by
      intro d item k2 e2 hd h2
      simp only [insertItemScore] at h2
      split_ifs at h2 with hi
      · rw [dictInsert_eq] at h2
        split_ifs at h2 with hk2
        · cases h2; exact clampScore_range _
        · exact hd k2 e2 h2
      · exact hd k2 e2 h2
    have hbase : ∀ k2 e2,
        (List.foldl (insertItemScore (batchPids videos)) emptyScoreDict
          (parseScoresResponse parsed)) k2 = some e2 → 0 ≤ e2.score ∧ e2.score ≤ 100 :=
      foldl_dict_prop (fun e => 0 ≤ e.score ∧ e.score ≤ 100)
        (insertItemScore (batchPids videos)) hinsert (parseScoresResponse parsed)
        emptyScoreDict (fun k2 e2 h2 => by cases h2)
    have hfill : ∀ (d : ScoreDict) (pid : String) (k2 : String) (e2 : ScoreEntry),
        (∀ k3 e3, d k3 = some e3 → 0 ≤ e3.score ∧ e3.score ≤ 100) →
        fillUnscored d pid k2 = some e2 → 0 ≤ e2.score ∧ e2.score ≤ 100 := by
      intro d pid k2 e2 hd h2
      cases hdp : d pid with
      | none =>
        rw [show fillUnscored d pid = dictInsert d pid ⟨50, "unscored"⟩ from by
          simp [fillUnscored, hdp]] at h2
        rw [dictInsert_eq] at h2
        split_ifs at h2 with hk2
        · cases h2; exact ⟨by norm_num, by norm_num⟩
        · exact hd k2 e2 h2
      | some w =>
        rw [show fillUnscored d pid = d from by simp [fillUnscored, hdp]] at h2
        exact hd k2 e2 h2
    exact foldl_dict_prop (fun e => 0 ≤ e.score ∧ e.score ≤ 100) fillUnscored hfill
      (batchPids videos) _ hbase k e h

/-! ## C5 — malformed relevance responses -/

/-- C5 counterexample: a malformed (non-JSON-parseable) Gemini response is
caught inside `_parse_scores_response`, which returns `[]`, so every
candidate of the batch is filled in with reason `"unscored"` — not
`"scoring error"`, which is produced only when the call itself raises. -/
theorem scoreBatch_malformed_reason_is_unscored :
    scoreBatch [⟨"v1", "v1"⟩] (.returns none) "v1" = some ⟨50, "unscored"⟩ ∧
    (ScoreEntry.mk 50 "unscored" ≠ ScoreEntry.mk 50 "scoring error") := by
  constructor
  · decide
  · decide

/-- C5 (amended): when the Gemini response for a batch is malformed
(non-JSON-parseable), every candidate in the batch receives the neutral
score 50 with reason `"unscored"` and `_score_batch` returns normally; the
reason `"scoring error"` is attached (again with score 50 for the whole
batch) exactly when the scoring call itself raises. -/
theorem scoreBatch_malformed_neutral (videos : List PFVideo) (p : String)
    (msg : String) (hp : p ∈ batchPids videos) :
    scoreBatch videos (.returns none) p = some ⟨50, "unscored"⟩ ∧
    scoreBatch videos (.raises msg) p = some ⟨50, "scoring error"⟩ := by
  constructor
  · simp only [scoreBatch, parseScoresResponse, Option.getD, List.foldl]
    exact fillUnscored_mem (batchPids videos) emptyScoreDict p hp rfl
  · simp only [scoreBatch]
    rw [if_pos hp]

/-- Witness for C5 on a two-candidate batch. -/
theorem scoreBatch_malformed_neutral_witness :
    scoreBatch [⟨"a", ""⟩, ⟨"", "b"⟩] (.returns none) "b" = some ⟨50, "unscored"⟩ ∧
    scoreBatch [⟨"a", ""⟩, ⟨"", "b"⟩] (.raises "boom") "b" = some ⟨50, "scoring error"⟩ :=
  scoreBatch_malformed_neutral [⟨"a", ""⟩, ⟨"", "b"⟩] "b" "boom" (by decide)

/-! ## C10 — relevance scores stay in range -/

/-- C10: provided every cached relevance row is in range — which the cache
save path maintains, since it only stores clamped `_score_batch` entries —
every candidate in the output of `batch_ai_score` carries a
`relevance_score` in `[0, 100]`: external scores are clamped (not
rejected), unscored candidates get exactly 50, so downstream filtering and
blending never see an out-of-range relevance score.  The second conjunct is
the preservation step: every newly scored entry is itself in range. -/
theorem batchAiScore_scores_in_range (videos : List PFVideo) (dbRows : List CacheRow)
    (now : Int) (outcomes : Nat → GeminiOutcome) (present : Bool)
    (p : PFVideo × ScoreEntry) (k : String) (e : ScoreEntry)
    (hdb : ∀ row ∈ dbRows, 0 ≤ row.score ∧ row.score ≤ 100)
    (hp : p ∈ batchAiScore videos dbRows now outcomes present)
    (hk : newScores videos dbRows now outcomes present k = some e) :
    (0 ≤ p.2.score ∧ p.2.score ≤ 100) ∧ (0 ≤ e.score ∧ e.score ≤ 100) := by
  have hstep : ∀ (d : ScoreDict) (b : Nat × List PFVideo) (k3 : String) (e3 : ScoreEntry),
      (∀ k4 e4, d k4 = some e4 → 0 ≤ e4.score ∧ e4.score ≤ 100) →
      dictUpdate d (scoreBatch b.2 (outcomes b.1)) k3 = some e3 →
      0 ≤ e3.score ∧ e3.score ≤ 100 := by
    intro d b k3 e3 hd h3
    simp only [dictUpdate] at h3
    cases hsb : scoreBatch b.2 (outcomes b.1) k3 with
    | none => rw [hsb] at h3; exact hd k3 e3 h3
    | some w =>
      rw [hsb] at h3
      cases h3
      exact scoreBatch_some_range b.2 (outcomes b.1) k3 _ hsb
  have hnew : ∀ (k2 : String) (e2 : ScoreEntry),
      newScores videos dbRows now outcomes present k2 = some e2 →
      0 ≤ e2.score ∧ e2.score ≤ 100 := by
    intro k2 e2 h2
    simp only [newScores] at h2
    split_ifs at h2 with hg
    · exact foldl_dict_prop (fun e => 0 ≤ e.score ∧ e.score ≤ 100)
        (fun d q => dictUpdate d (scoreBatch q.2 (outcomes q.1))) hstep
        (chunkBatches (uncachedVideos videos dbRows now)).enum emptyScoreDict
        (fun k3 e3 h3 => by cases h3) k2 e2 h2
    · cases h2
  have hcached : ∀ (k2 : String) (e2 : ScoreEntry),
      cachedScores videos dbRows now k2 = some e2 → 0 ≤ e2.score ∧ e2.score ≤ 100 := by
    intro k2 e2 h2
    simp only [cachedScores] at h2
    split_ifs at h2 with hg
    cases hfr : freshRow dbRows (cacheCutoff now) k2 with
    | none => rw [hfr] at h2; cases h2
    | some row =>
      rw [hfr] at h2
      cases h2
      exact hdb row (List.mem_of_find?_eq_some hfr)
  refine ⟨?_, hnew k e hk⟩
  simp only [batchAiScore] at hp
  split_ifs at hp with hveq0
  · cases hp
  · obtain ⟨v, hv2, hpe⟩ := List.mem_map.mp hp
    have hgoal : ∀ w : Option ScoreEntry,
        (∀ e2, w = some e2 → 0 ≤ e2.score ∧ e2.score ≤ 100) →
        0 ≤ (w.getD ⟨50, "unscored"⟩).score ∧ (w.getD ⟨50, "unscored"⟩).score ≤ 100 := by
      intro w hw
      cases w with
      | none => exact ⟨by norm_num, by norm_num⟩
      | some w2 => exact hw w2 rfl
    rw [← hpe]
    simp only
    apply hgoal
    intro e2 h2
    simp only [dictUpdate] at h2
    cases hns : newScores videos dbRows now outcomes present (cachePid v) with
    | none => rw [hns] at h2; exact hcached _ _ h2
    | some w2 =>
      rw [hns] at h2
      cases h2
      exact hnew _ _ hns

/-- Witness for C10: a run with one fresh-cached candidate and one candidate
scored by a malformed-response batch. -/
theorem batchAiScore_scores_in_range_witness :
    (0 ≤ ((⟨"b", "b"⟩, ⟨50, "unscored"⟩) : PFVideo × ScoreEntry).2.score ∧
      ((⟨"b", "b"⟩, ⟨50, "unscored"⟩) : PFVideo × ScoreEntry).2.score ≤ 100) ∧
    (0 ≤ (ScoreEntry.mk 50 "unscored").score ∧ (ScoreEntry.mk 50 "unscored").score ≤ 100) :=
  batchAiScore_scores_in_range [⟨"a", "a"⟩, ⟨"b", "b"⟩] [⟨"a", 80, none, 1000⟩] 1000
    (fun _ => .returns none) true (⟨"b", "b"⟩, ⟨50, "unscored"⟩) "b" ⟨50, "unscored"⟩
    (by decide) (by decide) (by decide)

/-! ## C3 — failure counting and the Error transition -/

/-- C3: an unhandled run failure increments the consecutive-error counter,
stores the message truncated to 500 characters, and still computes the next
run time; the config moves to Error with its scheduled trigger removed
exactly when the (incremented) counter reaches 3 — below 3 status and
trigger are untouched; a successful run resets the counter to 0 and clears
the last error. -/
theorem failTransition_spec (c : SVConfigState) (msg : String) (now intervalHours : Int) :
    (failTransition c msg now intervalHours).1.consecutive_errors
        = some (c.consecutive_errors.getD 0 + 1) ∧
    (failTransition c msg now intervalHours).1.last_error = some (msg.take 500) ∧
    (failTransition c msg now intervalHours).1.last_run_status = some "failed" ∧
    (failTransition c msg now intervalHours).1.next_run_at
        = some (now + intervalHours * 3600) ∧
    (3 ≤ c.consecutive_errors.getD 0 + 1 →
      (failTransition c msg now intervalHours).1.status = SVStatus.error ∧
      (pyTruthyStr c.scheduler_job_id = true →
        (failTransition c msg now intervalHours).1.scheduler_job_id = none ∧
        (failTransition c msg now intervalHours).2 = true) ∧
      (pyTruthyStr c.scheduler_job_id = false →
        (failTransition c msg now intervalHours).1.scheduler_job_id
            = c.scheduler_job_id ∧
        (failTransition c msg now intervalHours).2 = false)) ∧
    (c.consecutive_errors.getD 0 + 1 < 3 →
      (failTransition c msg now intervalHours).1.status = c.status ∧
      (failTransition c msg now intervalHours).1.scheduler_job_id
          = c.scheduler_job_id ∧
      (failTransition c msg now intervalHours).2 = false) ∧
    (successTransition c now intervalHours).consecutive_errors = some 0 ∧
    (successTransition c now intervalHours).last_error = none ∧
    (successTransition c now intervalHours).last_run_status = some "success" ∧
    (successTransition c now intervalHours).next_run_at
        = some (now + intervalHours * 3600) := by
  simp only [failTransition, successTransition]
  by_cases h3 : c.consecutive_errors.getD 0 + 1 ≥ 3
  · rw [if_pos h3]
    by_cases hpt : pyTruthyStr c.scheduler_job_id = true
    · rw [if_pos hpt]
      exact ⟨rfl, rfl, rfl, rfl,
        fun _ => ⟨rfl, fun _ => ⟨rfl, rfl⟩, fun hf => by rw [hpt] at hf; cases hf⟩,
        fun hlt => absurd h3 (by omega), trivial, trivial, trivial, trivial⟩
    · rw [if_neg hpt]
      exact ⟨rfl, rfl, rfl, rfl,
        fun _ => ⟨rfl, fun ht => absurd ht hpt, fun _ => ⟨rfl, rfl⟩⟩,
        fun hlt => absurd h3 (by omega), trivial, trivial, trivial, trivial⟩
  · rw [if_neg h3]
    exact ⟨rfl, rfl, rfl, rfl, fun hge => absurd hge h3,
      fun _ => ⟨rfl, rfl, rfl⟩, trivial, trivial, trivial, trivial⟩

/-- Witness for C3: a config at 2 consecutive errors with a live trigger —
the third failure moves it to Error and removes the job. -/
theorem failTransition_spec_witness :
    (failTransition ⟨.active, some 2, none, none, none, some "sv_config_1"⟩ "boom" 0 6).1.consecutive_errors
        = some ((⟨.active, some 2, none, none, none, some "sv_config_1"⟩ : SVConfigState).consecutive_errors.getD 0 + 1) ∧
    (failTransition ⟨.active, some 2, none, none, none, some "sv_config_1"⟩ "boom" 0 6).1.last_error
        = some ("boom".take 500) ∧
    (failTransition ⟨.active, some 2, none, none, none, some "sv_config_1"⟩ "boom" 0 6).1.last_run_status
        = some "failed" ∧
    (failTransition ⟨.active, some 2, none, none, none, some "sv_config_1"⟩ "boom" 0 6).1.next_run_at
        = some (0 + 6 * 3600) ∧
    (3 ≤ (⟨.active, some 2, none, none, none, some "sv_config_1"⟩ : SVConfigState).consecutive_errors.getD 0 + 1 →
      (failTransition ⟨.active, some 2, none, none, none, some "sv_config_1"⟩ "boom" 0 6).1.status = SVStatus.error ∧
      (pyTruthyStr (⟨.active, some 2, none, none, none, some "sv_config_1"⟩ : SVConfigState).scheduler_job_id = true →
        (failTransition ⟨.active, some 2, none, none, none, some "sv_config_1"⟩ "boom" 0 6).1.scheduler_job_id = none ∧
        (failTransition ⟨.active, some 2, none, none, none, some "sv_config_1"⟩ "boom" 0 6).2 = true) ∧
      (pyTruthyStr (⟨.active, some 2, none, none, none, some "sv_config_1"⟩ : SVConfigState).scheduler_job_id = false →
        (failTransition ⟨.active, some 2, none, none, none, some "sv_config_1"⟩ "boom" 0 6).1.scheduler_job_id
            = (⟨.active, some 2, none, none, none, some "sv_config_1"⟩ : SVConfigState).scheduler_job_id ∧
        (failTransition ⟨.active, some 2, none, none, none, some "sv_config_1"⟩ "boom" 0 6).2 = false)) ∧
    ((⟨.active, some 2, none, none, none, some "sv_config_1"⟩ : SVConfigState).consecutive_errors.getD 0 + 1 < 3 →
      (failTransition ⟨.active, some 2, none, none, none, some "sv_config_1"⟩ "boom" 0 6).1.status
          = (⟨.active, some 2, none, none, none, some "sv_config_1"⟩ : SVConfigState).status ∧
      (failTransition ⟨.active, some 2, none, none, none, some "sv_config_1"⟩ "boom" 0 6).1.scheduler_job_id
          = (⟨.active, some 2, none, none, none, some "sv_config_1"⟩ : SVConfigState).scheduler_job_id ∧
      (failTransition ⟨.active, some 2, none, none, none, some "sv_config_1"⟩ "boom" 0 6).2 = false) ∧
    (successTransition ⟨.active, some 2, none, none, none, some "sv_config_1"⟩ 0 6).consecutive_errors = some 0 ∧
    (successTransition ⟨.active, some 2, none, none, none, some "sv_config_1"⟩ 0 6).last_error = none ∧
    (successTransition ⟨.active, some 2, none, none, none, some "sv_config_1"⟩ 0 6).last_run_status = some "success" ∧
    (successTransition ⟨.active, some 2, none, none, none, some "sv_config_1"⟩ 0 6).next_run_at
        = some (0 + 6 * 3600) :=
  failTransition_spec ⟨.active, some 2, none, none, none, some "sv_config_1"⟩ "boom" 0 6

/-! ## C6 helper lemmas -/

theorem find?_unique {α : Type} {p : α → Bool} (rows : List α) (row : α)
    (hmem : row ∈ rows) (hp : p row = true)
    (huniq : ∀ r ∈ rows, p r = true → r = row) :
    rows.find? p = some row := by
  induction rows with
  | nil => cases hmem
  | cons a rest ih =>
    by_cases hpa : p a = true
    · have ha : a = row := huniq a (List.mem_cons_self a rest) hpa
      subst ha
      simp [List.find?_cons_of_pos, hpa]
    · have hmem2 : row ∈ rest := by
        cases List.mem_cons.mp hmem with
        | inl h => subst h; exact absurd hp hpa
        | inr h => exact h
      rw [List.find?_cons_of_neg _ (by simpa using hpa)]
      exact ih hmem2 (fun r hr hpr => huniq r (List.mem_cons_of_mem a hr) hpr)

theorem getD_mem_of_lt {l : List String} {n : Nat} (h : n < l.length) (d : String) :
    l.getD n d ∈ l := by
  rw [List.getD_eq_getElem l d h]
  exact List.getElem_mem h

theorem foldl_none_key {β : Type} (f : ScoreDict → β → ScoreDict) (k : String) :
    ∀ (l : List β) (d : ScoreDict),
      (∀ (d2 : ScoreDict) (b : β), b ∈ l → d2 k = none → f d2 b k = none) →
      d k = none → (l.foldl f d) k = none := by
  intro l
  induction l with
  | nil => intro d _ hd; exact hd
  | cons b rest ih =>
    intro d hf hd
    exact ih (f d b)
      (fun d2 b2 hb2 => hf d2 b2 (List.mem_cons_of_mem b hb2))
      (hf d b (List.mem_cons_self b rest) hd)

/-- `_score_batch` only ever produces entries keyed by its `video_ids`. -/
theorem scoreBatch_none_of_not_mem (videos : List PFVideo) (outcome : GeminiOutcome)
    (k : String) (hk : k ∉ batchPids videos) : scoreBatch videos outcome k = none := by
  cases outcome with
  | raises msg =>
    simp only [scoreBatch]
    rw [if_neg hk]
  | returns parsed =>
    simp only [scoreBatch]
    apply foldl_none_key fillUnscored k (batchPids videos)
    · intro d2 b hb hd2
      simp only [fillUnscored]
      cases hdb : d2 b with
      | none =>
        show dictInsert d2 b ⟨50, "unscored"⟩ k = none
        rw [dictInsert_eq, if_neg (fun he => hk (by rw [he]; exact hb))]
        exact hd2
      | some w => exact hd2
    · apply foldl_none_key (insertItemScore (batchPids videos)) k
        (parseScoresResponse parsed)
      · intro d2 item _ hd2
        simp only [insertItemScore]
        split_ifs with hi
        · rw [dictInsert_eq]
          have hlt : (item.id - 1).toNat < (batchPids videos).length := by omega
          rw [if_neg (fun he => hk (by rw [he]; exact getD_mem_of_lt hlt ""))]
          exact hd2
        · exact hd2
      · rfl

theorem mem_uncached_iff (videos : List PFVideo) (dbRows : List CacheRow) (now : Int)
    (v : PFVideo) (hv : v ∈ videos) :
    v ∈ uncachedVideos videos dbRows now ↔
      (cachePid v = "" ∨ freshRow dbRows (cacheCutoff now) (cachePid v) = none) := by
  simp [uncachedVideos, List.mem_filter, hv]

theorem batchPid_eq_cachePid (u : PFVideo) (i : Nat) (h : cachePid u ≠ "") :
    batchPid i u = cachePid u := by
  simp only [batchPid, cachePid, pyOrStr] at *
  by_cases h1 : u.platform_id = "" <;> by_cases h2 : u.id = "" <;> simp_all

/-- When no batch key for the uncached slices equals `k`, `new_scores` holds
nothing for `k`. -/
theorem newScores_none (videos : List PFVideo) (dbRows : List CacheRow) (now : Int)
    (outcomes : Nat → GeminiOutcome) (present : Bool) (k : String)
    (hk : ∀ chunk ∈ chunkBatches (uncachedVideos videos dbRows now), k ∉ batchPids chunk) :
    newScores videos dbRows now outcomes present k = none := by
  simp only [newScores]
  split_ifs with hg
  · apply foldl_none_key
    · intro d2 b hb hd2
      simp only [dictUpdate]
      have hb2 : b.2 ∈ chunkBatches (uncachedVideos videos dbRows now) := by
        have := List.mem_map_of_mem Prod.snd hb
        rwa [List.enum_map_snd] at this
      rw [scoreBatch_none_of_not_mem b.2 (outcomes b.1) k (hk b.2 hb2)]
      exact hd2
    · rfl
  · rfl

/-! ## C6 — the relevance cache TTL -/

/-- C6: for a video of the run whose (project, video id) holds a cached
score row: if the row is strictly less than 24 hours old the video is not
among the uncached candidates — so no Gemini relevance call covers it — and
the output of `batch_ai_score` carries exactly the cached score and reason
for it; once the row is 24 hours old or older, the video is among the
uncached candidates and lies in one of the slices actually sent to the
scorer. -/
theorem cache_ttl_spec (videos : List PFVideo) (dbRows : List CacheRow) (now : Int)
    (outcomes : Nat → GeminiOutcome) (v : PFVideo) (row : CacheRow)
    (hv : v ∈ videos)
    (hallpid : ∀ u ∈ videos, cachePid u ≠ "")
    (hrow : row ∈ dbRows) (hkey : row.video_platform_id = cachePid v)
    (huniq : ∀ r ∈ dbRows, r.video_platform_id = cachePid v → r = row) :
    (now - row.scored_at < CACHE_TTL_HOURS * 3600 →
      v ∉ uncachedVideos videos dbRows now ∧
      (v, ⟨row.score, row.reason.getD ""⟩) ∈ batchAiScore videos dbRows now outcomes true) ∧
    (CACHE_TTL_HOURS * 3600 ≤ now - row.scored_at →
      v ∈ uncachedVideos videos dbRows now ∧
      ∃ chunk ∈ chunkBatches (uncachedVideos videos dbRows now), v ∈ chunk) := by
  have hpid : cachePid v ≠ "" := hallpid v hv
  constructor
  · intro hfresh
    have hfr : freshRow dbRows (cacheCutoff now) (cachePid v) = some row := by
      apply find?_unique dbRows row hrow
      · simp only [decide_eq_true_eq]
        refine ⟨hkey, ?_⟩
        simp only [cacheCutoff]
        omega
      · intro r hr hpr
        simp only [decide_eq_true_eq] at hpr
        exact huniq r hr hpr.1
    have hnotun : v ∉ uncachedVideos videos dbRows now := by
      intro hmem
      rcases (mem_uncached_iff videos dbRows now v hv).mp hmem with h | h
      · exact hpid h
      · rw [hfr] at h; cases h
    refine ⟨hnotun, ?_⟩
    have hnsnone : newScores videos dbRows now outcomes true (cachePid v) = none := by
      apply newScores_none
      intro chunk hchunk hkmem
      obtain ⟨q, hq, hqe⟩ := List.mem_map.mp hkmem
      have hu2 : q.2 ∈ chunk := by
        have := List.mem_map_of_mem Prod.snd hq
        rwa [List.enum_map_snd] at this
      have huun : q.2 ∈ uncachedVideos videos dbRows now := by
        have hflat := chunkBatches_flatten (uncachedVideos videos dbRows now)
        rw [← hflat]
        exact List.mem_flatten.mpr ⟨chunk, hchunk, hu2⟩
      have huv : q.2 ∈ videos := List.mem_of_mem_filter huun
      have hqpid : cachePid q.2 ≠ "" := hallpid q.2 huv
      rw [batchPid_eq_cachePid q.2 q.1 hqpid] at hqe
      rcases (mem_uncached_iff videos dbRows now q.2 huv).mp huun with h | h
      · exact hqpid h
      · rw [hqe, hfr] at h; cases h
    have hcache : cachedScores videos dbRows now (cachePid v)
        = some ⟨row.score, row.reason.getD ""⟩ := by
      simp only [cachedScores]
      rw [if_pos ⟨hpid, List.any_eq_true.mpr ⟨v, hv, by simp⟩⟩, hfr]
    simp only [batchAiScore]
    rw [if_neg (show ¬ videos = [] from fun h => by subst h; cases hv)]
    apply List.mem_map.mpr
    refine ⟨v, hv, ?_⟩
    simp only [dictUpdate, hnsnone, hcache]
    rfl
  · intro hstale
    have hfrn : freshRow dbRows (cacheCutoff now) (cachePid v) = none := by
      apply List.find?_eq_none.mpr
      intro r hr
      simp only [decide_eq_true_eq, cacheCutoff]
      intro hbad
      have := huniq r hr hbad.1
      subst this
      omega
    have hvu : v ∈ uncachedVideos videos dbRows now :=
      (mem_uncached_iff videos dbRows now v hv).mpr (Or.inr hfrn)
    refine ⟨hvu, ?_⟩
    have hflat := chunkBatches_flatten (uncachedVideos videos dbRows now)
    rw [← hflat] at hvu
    exact List.mem_flatten.mp hvu

/-- Witness for C6: one video with a cache row scored at the current
instant (fresh) — no call is issued for it and its cached score 80 is
reused. -/
theorem cache_ttl_spec_witness :
    (1000 - (CacheRow.mk "a" 80 (some "good") 1000).scored_at < CACHE_TTL_HOURS * 3600 →
      (⟨"a", "a"⟩ : PFVideo) ∉ uncachedVideos [⟨"a", "a"⟩] [⟨"a", 80, some "good", 1000⟩] 1000 ∧
      ((⟨"a", "a"⟩ : PFVideo), ⟨(CacheRow.mk "a" 80 (some "good") 1000).score,
          (CacheRow.mk "a" 80 (some "good") 1000).reason.getD ""⟩) ∈
        batchAiScore [⟨"a", "a"⟩] [⟨"a", 80, some "good", 1000⟩] 1000
          (fun _ => .returns none) true) ∧
    (CACHE_TTL_HOURS * 3600 ≤ 1000 - (CacheRow.mk "a" 80 (some "good") 1000).scored_at →
      (⟨"a", "a"⟩ : PFVideo) ∈ uncachedVideos [⟨"a", "a"⟩] [⟨"a", 80, some "good", 1000⟩] 1000 ∧
      ∃ chunk ∈ chunkBatches (uncachedVideos [⟨"a", "a"⟩] [⟨"a", 80, some "good", 1000⟩] 1000),
        (⟨"a", "a"⟩ : PFVideo) ∈ chunk) :=
  cache_ttl_spec [⟨"a", "a"⟩] [⟨"a", 80, some "good", 1000⟩] 1000
    (fun _ => .returns none) ⟨"a", "a"⟩ ⟨"a", 80, some "good", 1000⟩
    (by decide) (by decide) (by decide) (by decide) (by decide)

/-! ## C1 helper lemmas -/

theorem collect_invariant (existing : List String) :
    ∀ (above : List SVCandidate) (seen : List String) (acc : List RankedCandidate),
      (acc.map fun c => svVidId c.video).Nodup →
      (∀ c ∈ acc, svVidId c.video ∈ seen) →
      (∀ c ∈ acc, svVidId c.video ∉ existing) →
      ((above.foldl (collectStep existing) (seen, acc)).2.map
        fun c => svVidId c.video).Nodup ∧
      (∀ c ∈ (above.foldl (collectStep existing) (seen, acc)).2,
        svVidId c.video ∉ existing) := by
  intro above
  induction above with
  | nil => intro seen acc h1 _ h3; exact ⟨h1, h3⟩
  | cons v rest ih =>
    intro seen acc h1 h2 h3
    rw [List.foldl_cons]
    by_cases hskip : svVidId v = "" ∨ svVidId v ∈ seen
    · rw [show collectStep existing (seen, acc) v = (seen, acc) from by
        simp [collectStep, hskip]]
      exact ih seen acc h1 h2 h3
    · push_neg at hskip
      obtain ⟨hne, hnotseen⟩ := hskip
      by_cases hex : svVidId v ∈ existing
      · rw [show collectStep existing (seen, acc) v = (svVidId v :: seen, acc) from by
          simp [collectStep, hne, hnotseen, hex]]
        exact ih _ _ h1 (fun c hc => List.mem_cons_of_mem _ (h2 c hc)) h3
      · rw [show collectStep existing (seen, acc) v
            = (svVidId v :: seen,
               acc ++ [⟨v, blendFinalScore v.relevance_score v.vision_score⟩]) from by
          simp [collectStep, hne, hnotseen, hex]]
        apply ih
        · rw [List.map_append]
          apply List.Nodup.append h1 (List.nodup_singleton _)
          intro x hx hxs
          rw [List.mem_singleton] at hxs
          have hxv : x = svVidId v := by simpa using hxs
          subst hxv
          obtain ⟨c, hc, he⟩ := List.mem_map.mp hx
          exact hnotseen (he ▸ h2 c hc)
        · intro c hc
          rcases List.mem_append.mp hc with h | h
          · exact List.mem_cons_of_mem _ (h2 c h)
          · rw [List.mem_singleton] at h
            subst h
            exact List.mem_cons_self _ _
        · intro c hc
          rcases List.mem_append.mp hc with h | h
          · exact h3 c h
          · rw [List.mem_singleton] at h
            subst h
            exact hex

theorem scrape_invariant (minViews cutoffDate : Int) (existing : List String) :
    ∀ (items : List RawItem) (seen : List String) (acc : List RawItem),
      (∀ it ∈ acc, pyOrStr it.id it.platform_id ≠ "" →
        pyOrStr it.id it.platform_id ∉ existing) →
      ∀ it ∈ (items.foldl (scrapeStep minViews cutoffDate existing) (seen, acc)).2,
        pyOrStr it.id it.platform_id ≠ "" → pyOrStr it.id it.platform_id ∉ existing := by
  intro items
  induction items with
  | nil => intro seen acc hacc; exact hacc
  | cons item rest ih =>
    intro seen acc hacc
    rw [List.foldl_cons]
    have hstep : ∃ seen2,
        scrapeStep minViews cutoffDate existing (seen, acc) item = (seen2, acc) ∨
        (scrapeStep minViews cutoffDate existing (seen, acc) item
            = (seen2, acc ++ [item]) ∧
          ¬(pyOrStr item.id item.platform_id ≠ "" ∧
            pyOrStr item.id item.platform_id ∈ existing)) := by
      by_cases h1 : item.id ∈ seen
      · exact ⟨seen, Or.inl (by simp [scrapeStep, h1])⟩
      · by_cases h2 : item.views < minViews
        · exact ⟨item.id :: seen, Or.inl (by simp [scrapeStep, h1, h2])⟩
        · cases hts : resolveCreatedTs item with
          | none => exact ⟨item.id :: seen, Or.inl (by simp [scrapeStep, h1, h2, hts])⟩
          | some ts =>
            by_cases h4 : ts < cutoffDate
            · exact ⟨item.id :: seen,
                Or.inl (by simp [scrapeStep, h1, h2, hts, h4])⟩
            · by_cases h5 : pyOrStr item.id item.platform_id ≠ "" ∧
                  pyOrStr item.id item.platform_id ∈ existing
              · exact ⟨item.id :: seen,
                  Or.inl (by simp [scrapeStep, h1, h2, hts, h4, h5])⟩
              · exact ⟨item.id :: seen,
                  Or.inr ⟨by simp [scrapeStep, h1, h2, hts, h4, h5], h5⟩⟩
    obtain ⟨seen2, hcase⟩ := hstep
    rcases hcase with heq | ⟨heq, hnotex⟩
    · rw [heq]
      exact ih seen2 acc hacc
    · rw [heq]
      apply ih
      intro it hit hne
      rcases List.mem_append.mp hit with h | h
      · exact hacc it h hne
      · rw [List.mem_singleton] at h
        subst h
        intro hex2
        exact hnotex ⟨hne, hex2⟩

/-! ## C1 — no duplicate ScanResult rows -/

/-- C1: the ids persisted by one run are pairwise distinct (a within-run
duplicate id is persisted at most once), none of them already has a
persisted row for the config, and already-persisted candidates with a
non-empty id are likewise dropped during each scrape round, before any
scoring. -/
theorem scan_results_unique (existing : List String) (above : List SVCandidate)
    (maxStore : Nat) (minViews cutoffDate : Int) (seen0 : List String)
    (items : List RawItem) (pid : String) (it : RawItem)
    (hp : pid ∈ persistedIds existing above maxStore)
    (hit : it ∈ (scrapeRoundFilter minViews cutoffDate existing seen0 items).2)
    (hne : pyOrStr it.id it.platform_id ≠ "") :
    (persistedIds existing above maxStore).Nodup ∧
    pid ∉ existing ∧
    pyOrStr it.id it.platform_id ∉ existing := by
  obtain ⟨hnd, hnex⟩ := collect_invariant existing above [] []
    (by simp) (by intro c hc; cases hc) (by intro c hc; cases hc)
  have hperm : ((collectScoredCandidates existing above).mergeSort rankLE).Perm
      (collectScoredCandidates existing above) := List.mergeSort_perm _ _
  refine ⟨?_, ?_, ?_⟩
  · have h2 : (((collectScoredCandidates existing above).mergeSort rankLE).map
        fun c => svVidId c.video).Nodup := (hperm.symm.map _).nodup hnd
    have heq : persistedIds existing above maxStore
        = ((((collectScoredCandidates existing above).mergeSort rankLE).map
            fun c => svVidId c.video).take maxStore) := by
      simp [persistedIds, selectTopCandidates, List.map_take]
    rw [heq]
    exact List.Nodup.sublist (List.take_sublist _ _) h2
  · obtain ⟨c, hc, he⟩ := List.mem_map.mp hp
    have hc2 : c ∈ (collectScoredCandidates existing above).mergeSort rankLE :=
      List.mem_of_mem_take hc
    have hc3 : c ∈ collectScoredCandidates existing above := hperm.mem_iff.mp hc2
    exact he ▸ hnex c hc3
  · exact scrape_invariant minViews cutoffDate existing items seen0 []
      (by intro x hx; cases hx) it hit hne

unseal List.merge List.mergeSort in
/-- Witness for C1: a one-candidate run against an existing row `"e1"`, and
a scrape round accepting one new item. -/
theorem scan_results_unique_witness :
    (persistedIds ["e1"] [⟨"x", "x", 90, none⟩] 5).Nodup ∧
    "x" ∉ ["e1"] ∧
    pyOrStr (RawItem.mk "n1" "n1" 100 (some 5)).id
        (RawItem.mk "n1" "n1" 100 (some 5)).platform_id ∉ ["e1"] :=
  scan_results_unique ["e1"] [⟨"x", "x", 90, none⟩] 5 0 0 []
    [⟨"n1", "n1", 100, some 5⟩] "x" ⟨"n1", "n1", 100, some 5⟩
    (by decide) (by decide) (by decide)

end Rizko
